import Mathlib

/-!
Verification of the BW-MetaBase daily spreadsheet-import pipeline
(`docker/etl/bi_daily_import.py`) against its natural-language design
specification.

The development shallowly embeds the pipeline:

* the column-name sanitizer (the loop over `df.columns` in
  `SharePointETL.import_dataframe_to_db`, lines 277-291);
* the sheet-name cleaner used for fan-out table names
  (`import_multi_sheet_excel`, line 196);
* the cell normalizer mapping missing markers to SQL NULL
  (lines 262-265 and 321-328);
* a transactional relational-store model (psycopg2 opens an implicit
  transaction; every statement issued through `cursor.execute` takes
  effect only at the single `conn.commit()` on line 334, and an
  exception before the commit rolls the whole unit back);
* the per-dataframe import (`import_dataframe_to_db`), the single- and
  multi-sheet orchestrators (`import_single_sheet_excel`,
  `import_multi_sheet_excel`), and the run orchestrator
  (`run_daily_import` / `main`).

Strings are modelled as Lean `String` (lists of characters); Python
`re.sub`/`str.strip`/`str.lower` become explicit character-list
functions with the same operation order as the source.
-/

namespace BWMetaBase

/-! ### Identifier sanitizer (import_dataframe_to_db, lines 277-291) -/

/-- Characters kept by the regex `[^a-zA-Z0-9_]` replacement: ASCII
letters, ASCII digits, and underscore. -/
def keepChar (c : Char) : Bool := c.isAlpha || c.isDigit || c == '_'

/-- Step (1)-(2): `re.sub(r'[^a-zA-Z0-9_]', '_', col_str)` — replace
every character outside the whitelist with an underscore. -/
def replaceBad (l : List Char) : List Char :=
  l.map fun c => if keepChar c then c else '_'

/-- Step (3): `re.sub(r'^[0-9]', 'col_\g<0>', cleaned)` — if the string
starts with a digit, put `col_` in front of that digit. -/
def prefixDigitCol : List Char → List Char
  | [] => []
  | c :: rest => if c.isDigit then 'c' :: 'o' :: 'l' :: '_' :: c :: rest else c :: rest

/-- Step (4): `re.sub(r'_+', '_', cleaned)` — collapse every run of
underscores to a single underscore. -/
def collapseU : List Char → List Char
  | [] => []
  | [c] => [c]
  | c :: d :: rest =>
    if c == '_' && d == '_' then collapseU (d :: rest)
    else c :: collapseU (d :: rest)

/-- Leading half of Python `str.strip('_')`. -/
def stripLead (l : List Char) : List Char := l.dropWhile (· == '_')

/-- Trailing half of Python `str.strip('_')`: remove the maximal run of
trailing underscores. -/
def stripTrail : List Char → List Char
  | [] => []
  | c :: rest =>
    match stripTrail rest with
    | [] => if c == '_' then [] else [c]
    | d :: r => c :: d :: r

/-- Step (5): `cleaned.strip('_')`. -/
def stripU (l : List Char) : List Char := stripTrail (stripLead l)

/-- Step (6): `.lower()` applied character-wise. -/
def lcList (l : List Char) : List Char := l.map Char.toLower

/-- Steps (1)-(6) of the sanitizer, before the empty/reserved fallback. -/
def sanitizeCore (s : List Char) : List Char :=
  lcList (stripU (collapseU (prefixDigitCol (replaceBad s))))

/-- The reserved-word list `['user', 'order', 'group', 'table', 'index']`. -/
def reservedWords : List (List Char) :=
  ["user".toList, "order".toList, "group".toList, "table".toList, "index".toList]

/-- Step (7) guard: result empty, or equal to a reserved word. -/
def needsFallback (l : List Char) : Bool := l.isEmpty || reservedWords.contains l

/-- The column-name sanitizer of `import_dataframe_to_db` (lines
279-289): clean the label, and fall back to `column_{ordinal}` when the
cleaned label is empty or a reserved word.  The ordinal passed by the
source loop is `len(cleaned_columns)`, the position of the column. -/
def sanitize (s : String) (ordinal : Nat) : String :=
  let cleaned := sanitizeCore s.toList
  if needsFallback cleaned then "column_" ++ toString ordinal
  else String.mk cleaned

/-- The whole cleaning loop of lines 277-291: each raw label is
sanitized with its position as the ordinal (`len(cleaned_columns)` grows
by one per processed column). -/
def cleanColumnsAux : Nat → List String → List String
  | _, [] => []
  | i, l :: ls => sanitize l i :: cleanColumnsAux (i + 1) ls

/-- Sanitized identifiers of one dataframe's columns, in order. -/
def cleanColumns (labels : List String) : List String := cleanColumnsAux 0 labels

/-! ### General predicates about identifiers -/

/-- Character allowed anywhere in a lowercase identifier: `[a-z0-9_]`. -/
def identChar (c : Char) : Bool := c.isLower || c.isDigit || c == '_'

/-- Character allowed at the head by the original spec sentence: `[a-z]`. -/
def lowerAlpha (c : Char) : Bool := c.isLower

/-- Character allowed at the head after amendment: `[a-z0-9]`. -/
def lowerOrDigit (c : Char) : Bool := c.isLower || c.isDigit

/-- The string matches the regex `[a-z][a-z0-9_]*` (the spec's original
shape for sanitized identifiers). -/
def matchesSpecIdent (s : String) : Bool :=
  match s.toList with
  | [] => false
  | c :: rest => lowerAlpha c && rest.all identChar

/-- The string matches the regex `[a-z0-9][a-z0-9_]*` (the shape the
code actually guarantees: the head may also be a digit). -/
def matchesCodeIdent (s : String) : Bool :=
  match s.toList with
  | [] => false
  | c :: rest => lowerOrDigit c && rest.all identChar

/-! ### Cells and the row normalizer (lines 262-265 and 321-328) -/

/-- A spreadsheet cell value as it sits in the pandas dataframe: the
three "missing" markers (empty cell / NaN, not-a-time, not-a-number),
or an ordinary value rendered as text (every data column is stored as
unbounded text). -/
inductive Cell where
  | blank
  | naT
  | naN
  | text (s : String)
deriving DecidableEq

/-- The `pd.isna` test: true exactly on the missing markers. -/
def isMissing : Cell → Bool
  | .blank => true
  | .naT => true
  | .naN => true
  | .text _ => false

/-- The per-value cleaning of the insert loop (lines 324-328), after
the whole-frame `df.replace({pd.NaT: None})` / `df.where(pd.notnull(df),
None)` of lines 262-265: a missing value becomes SQL NULL (`none`), and
a value whose text rendering is exactly `NaT` also becomes NULL; any
other value is kept and bound as a parameter. -/
def cleanValue : Cell → Option String
  | .blank => none
  | .naT => none
  | .naN => none
  | .text s => if s == "NaT" then none else some s

/-- The rows actually passed to `INSERT`: every source row is cleaned
value-by-value, and the synthetic `import_timestamp` value (captured
once per destination table, line 296) is appended as the last column. -/
def loadRows (rows : List (List Cell)) (ts : String) : List (List (Option String)) :=
  rows.map fun r => r.map cleanValue ++ [some ts]

/-- Column list of the destination table: the sanitized data columns
plus the trailing `import_timestamp` column (lines 293-296, 309-314). -/
structure Frame where
  columns : List String
  rows : List (List Cell)
deriving DecidableEq

def fullCols (f : Frame) : List String :=
  cleanColumns f.columns ++ ["import_timestamp"]

/-! ### The relational store, transactional (psycopg2 implicit
transaction: work happens on an uncommitted snapshot; `conn.commit()`
on line 334 publishes it, and an exception before the commit leaves the
committed state untouched). -/

/-- A materialized table: its column list and its rows (each cell is
`none` for SQL NULL or `some v` for a text value). -/
structure Table where
  cols : List String
  rows : List (List (Option String))
deriving DecidableEq

/-- The committed store: destination tables by name. -/
abbrev DB := List (String × Table)

def lookupTable (db : DB) (t : String) : Option Table := db.lookup t

/-- `DROP TABLE IF EXISTS t` — idempotent, absence is not an error. -/
def dropTable (db : DB) (t : String) : DB := db.filter fun p => p.1 != t

/-- Installing a table under a name (used by create and by insert). -/
def setTable (db : DB) (t : String) (tab : Table) : DB := (t, tab) :: dropTable db t

/-- Why the store rejects a statement. -/
inductive DbErr where
  | tableExists
  | dupColumn
  | noTable
  | badArity
deriving DecidableEq

/-- One SQL statement issued through `cursor.execute`. -/
inductive SqlOp where
  | dropT (t : String)
  | createT (t : String) (cols : List String)
  | insertT (t : String) (row : List (Option String))
deriving DecidableEq

/-- Duplicate detection for a column list (PostgreSQL rejects `CREATE
TABLE` with two columns of the same name). -/
def hasDup : List String → Bool
  | [] => false
  | c :: r => r.contains c || hasDup r

/-- Semantics of one statement against the uncommitted snapshot.
`CREATE TABLE` is rejected when the table already exists or two column
names coincide; `INSERT` is rejected when the table is absent or the
row arity differs from the column count. -/
def execOp (db : DB) : SqlOp → Except DbErr DB
  | .dropT t => .ok (dropTable db t)
  | .createT t cols =>
    if (lookupTable db t).isSome then .error .tableExists
    else if hasDup cols then .error .dupColumn
    else .ok (setTable db t ⟨cols, []⟩)
  | .insertT t row =>
    match lookupTable db t with
    | none => .error .noTable
    | some tab =>
      if row.length = tab.cols.length then
        .ok (setTable db t ⟨tab.cols, tab.rows ++ [row]⟩)
      else .error .badArity

/-- Executing a statement list left-to-right; the first rejection
aborts the unit. -/
def execOps (db : DB) : List SqlOp → Except DbErr DB
  | [] => .ok db
  | op :: rest =>
    match execOp db op with
    | .ok db2 => execOps db2 rest
    | .error e => .error e

/-- The statement trace of `import_dataframe_to_db` (lines 300-332):
drop-if-exists, create with sanitized columns plus `import_timestamp`,
then one `INSERT` per row. -/
def importOps (f : Frame) (t ts : String) : List SqlOp :=
  .dropT t :: .createT t (fullCols f) :: (loadRows f.rows ts).map (.insertT t)

/-- `import_dataframe_to_db`: run the trace in one transaction.  On
success (`conn.commit()`, line 334) the snapshot becomes the committed
state and the function returns `True`; on any store rejection the
`except` of line 341 returns `False` and — the commit never having
happened — the committed state is unchanged. -/
def importDataframeToDb (f : Frame) (t ts : String) (db : DB) : Bool × DB :=
  match execOps db (importOps f t ts) with
  | .ok db2 => (true, db2)
  | .error _ => (false, db)

/-- Pure success predicate of the import: it fails exactly when two
sanitized column names collide or some row's arity disagrees with the
column count (the initial committed state is irrelevant, because the
table is dropped before it is created). -/
def importFrameOk (f : Frame) : Bool :=
  !hasDup (fullCols f) && f.rows.all fun r => r.length == f.columns.length


/-! ### Tabular parsing (pandas `read_excel`) and the orchestrators -/

/-- Label a header cell the way pandas names dataframe columns: a text
cell gives its text, a missing header cell is named `Unnamed: {i}` for
its column position. -/
def headerLabel (i : Nat) : Cell → String
  | .text s => s
  | _ => "Unnamed: " ++ toString i

/-- Pad or truncate a data row to the column count, as the dataframe is
rectangular: short rows are filled with missing cells. -/
def padRow (n : Nat) (r : List Cell) : List Cell :=
  r.take n ++ List.replicate (n - r.length) Cell.blank

/-- The dataframe pandas builds from a header row and the following
data rows. -/
def mkFrame (header : List Cell) (data : List (List Cell)) : Frame :=
  ⟨(header.enum).map (fun p => headerLabel p.1 p.2), data.map (padRow header.length)⟩

/-- The substring that keys the header-skip policy (line 234: the check
is `'BI At Scale Import' in filename`). -/
def biAtScaleMarker : String := "BI At Scale Import"

/-- List form of substring containment. -/
def containsSubList (pat : List Char) : List Char → Bool
  | [] => pat.isEmpty
  | c :: rest => pat.isPrefixOf (c :: rest) || containsSubList pat rest

/-- Python substring containment (`pat in s`). -/
def containsSub (s pat : String) : Bool :=
  containsSubList pat.toList s.toList

/-- Header-policy resolution of `import_single_sheet_excel` (lines
234-243): a file whose name contains `BI At Scale Import` is read with
`skiprows=3, header=0` (the fourth stored row becomes the header); any
other file is read with its first row as the header. -/
def singleSheetRows (filename : String) (sheet : List (List Cell)) : List (List Cell) :=
  if containsSub filename biAtScaleMarker then sheet.drop 3 else sheet

/-- `import_single_sheet_excel` (lines 226-255): apply the header
policy, fail (return `False`) when the resulting dataframe is empty
(lines 246-248), otherwise import the dataframe. -/
def importSingleSheet (filename : String) (sheet : List (List Cell))
    (t ts : String) (db : DB) : Bool × DB :=
  match singleSheetRows filename sheet with
  | [] => (false, db)
  | header :: data =>
    if data.isEmpty then (false, db)
    else importDataframeToDb (mkFrame header data) t ts db

/-- The fan-out table-name cleaner of `import_multi_sheet_excel` (line
196): `re.sub(r'[^a-zA-Z0-9]', '_', sheet_name.lower())` — lowercase
first, then replace every character outside `[a-zA-Z0-9]` by an
underscore, with no collapsing, stripping, digit-prefixing or
reserved-word handling. -/
def cleanSheetName (s : String) : String :=
  String.mk (s.toList.map fun c =>
    let l := Char.toLower c
    if l.isAlpha || l.isDigit then l else '_')

/-- Fan-out destination table name (line 197):
`{base_table_name}_{clean_sheet_name}`. -/
def derivedTableName (base sheetName : String) : String :=
  base ++ "_" ++ cleanSheetName sheetName

/-- The per-sheet loop of `import_multi_sheet_excel` (lines 193-217):
each sheet is read with its first row as the header; an empty sheet is
skipped (`continue`, line 206); otherwise the sheet is imported into
its derived table, a success bumps the success count, and a failure is
recorded and the loop continues with the next sheet. -/
def importMultiSheet (base ts : String) : List (String × List (List Cell)) → DB → Nat × DB
  | [], db => (0, db)
  | (name, sheet) :: rest, db =>
    match sheet with
    | [] => importMultiSheet base ts rest db
    | header :: data =>
      if data.isEmpty then importMultiSheet base ts rest db
      else
        let r := importDataframeToDb (mkFrame header data) (derivedTableName base name) ts db
        let res := importMultiSheet base ts rest r.2
        ((if r.1 then 1 else 0) + res.1, res.2)

/-- `import_multi_sheet_excel` outcome (line 220): the file succeeds
when at least one sheet was imported (`success_count > 0`). -/
def importMultiSheetExcel (base ts : String) (sheets : List (String × List (List Cell)))
    (db : DB) : Bool × DB :=
  let r := importMultiSheet base ts sheets db
  (decide (0 < r.1), r.2)

/-- Per-binding configuration (the `target_files` records): display
file name, destination base table name, and fan-out mode. -/
inductive ImportType where
  | multiSheet
  | singleSheet
deriving DecidableEq

structure FileConfig where
  filename : String
  tableName : String
  importType : ImportType
deriving DecidableEq

/-- A fetched workbook: its sheets, by name, in stored order. -/
abbrev Workbook := List (String × List (List Cell))

/-- `import_excel_to_postgres` (lines 168-182): dispatch on the
binding's fan-out mode; single-sheet mode reads the workbook's first
sheet. -/
def importExcelToPostgres (cfg : FileConfig) (wb : Workbook) (ts : String)
    (db : DB) : Bool × DB :=
  match cfg.importType with
  | .multiSheet => importMultiSheetExcel cfg.tableName ts wb db
  | .singleSheet =>
    match wb with
    | [] => (false, db)
    | (_, sheet) :: _ => importSingleSheet cfg.filename sheet cfg.tableName ts db

/-- The binding loop of `run_daily_import` (lines 362-383): each
binding comes with the result of the (external) fetch; a failed fetch
is recorded and the loop continues; a fetched binding is imported and a
success bumps the success count. -/
def runDailyImport (ts : String) : List (FileConfig × Option Workbook) → DB → Nat × DB
  | [], db => (0, db)
  | (_, none) :: rest, db => runDailyImport ts rest db
  | (cfg, some wb) :: rest, db =>
    let r := importExcelToPostgres cfg wb ts db
    let res := runDailyImport ts rest r.2
    ((if r.1 then 1 else 0) + res.1, res.2)

/-- The summary line of line 385: `{success_count}/{len(target_files)}`. -/
def runSummary (ts : String) (files : List (FileConfig × Option Workbook))
    (db : DB) : Nat × Nat :=
  ((runDailyImport ts files db).1, files.length)

/-- Overall run outcome (lines 387-392): success exactly when every
binding succeeded. -/
def runSucceeded (ts : String) (files : List (FileConfig × Option Workbook))
    (db : DB) : Bool :=
  (runDailyImport ts files db).1 == files.length

/-- Process exit code (`main`, lines 394-400): `sys.exit(1)` when the
run did not fully succeed, 0 otherwise. -/
def exitCode (ts : String) (files : List (FileConfig × Option Workbook))
    (db : DB) : Nat :=
  if runSucceeded ts files db then 0 else 1

/-! ### Pure success predicates (store-independent) -/

/-- Success of a single-sheet import, as a function of the file name
and sheet contents alone. -/
def singleSheetOk (filename : String) (sheet : List (List Cell)) : Bool :=
  match singleSheetRows filename sheet with
  | [] => false
  | header :: data => !data.isEmpty && importFrameOk (mkFrame header data)

/-- Number of sheets a fan-out import materializes, as a function of
the sheet contents alone. -/
def multiCount : List (String × List (List Cell)) → Nat
  | [] => 0
  | (_, sheet) :: rest =>
    match sheet with
    | [] => multiCount rest
    | header :: data =>
      if data.isEmpty then multiCount rest
      else (if importFrameOk (mkFrame header data) then 1 else 0) + multiCount rest

/-- Success of one binding, as a function of its configuration and
fetch result alone. -/
def bindingOk : FileConfig × Option Workbook → Bool
  | (_, none) => false
  | (cfg, some wb) =>
    match cfg.importType with
    | .multiSheet => decide (0 < multiCount wb)
    | .singleSheet =>
      match wb with
      | [] => false
      | (_, sheet) :: _ => singleSheetOk cfg.filename sheet


/-! ### Concrete inputs used by claim-level theorems -/

/-- Sheet `Region` of the spec's end-to-end example: columns
`Region Name` and `2024 Target`, two data rows. -/
def regionSheet : List (List Cell) :=
  [[Cell.text "Region Name", Cell.text "2024 Target"],
   [Cell.text "North", Cell.text "100"],
   [Cell.text "South", Cell.text "200"]]

/-- Sheet `Empty`: a header row and zero data rows. -/
def emptySheet : List (List Cell) := [[Cell.text "Col A"]]

/-- Sheet `Product`: one column, one data row. -/
def productSheet : List (List Cell) :=
  [[Cell.text "Product"], [Cell.text "Widget"]]

/-- The three-sheet workbook of the fan-out example. -/
def wb3 : List (String × List (List Cell)) :=
  [("Region", regionSheet), ("Empty", emptySheet), ("Product", productSheet)]

/-- A store already holding a table `t` from an earlier run. -/
def dbC4 : DB := [("t", ⟨["c"], [[some "v"]]⟩)]

/-- A frame whose two labels sanitize to the same identifier, so its
`CREATE TABLE` is rejected by the store. -/
def frameC4 : Frame := ⟨["a b", "a.b"], [[Cell.text "x", Cell.text "y"]]⟩

/-- A single-sheet binding whose file name does not trigger the
header-skip policy. -/
def cfgC5 : FileConfig := ⟨"other.xlsx", "t", ImportType.singleSheet⟩

/-- A workbook whose only sheet has a header row and zero data rows. -/
def wbC5 : Workbook := [("Sheet1", [[Cell.text "h"]])]

/-! ### Character-level facts about ASCII lowercasing -/

theorem upper_toLower_isLower (c : Char) (h : c.isUpper = true) :
    (Char.toLower c).isLower = true := by
  simp [Char.isUpper, decide_eq_true_eq] at h
  obtain ⟨h1, h2⟩ := h
  have hn1 : 65 ≤ c.toNat := h1
  have hn2 : c.toNat ≤ 90 := h2
  unfold Char.toLower
  rw [if_pos ⟨hn1, hn2⟩]
  have hvalid : (c.toNat + 32).isValidChar := Or.inl (by omega)
  simp only [Char.isLower, Char.ofNat, dif_pos hvalid]
  have hval : (Char.ofNatAux (c.toNat + 32) hvalid).val.toNat = c.toNat + 32 := rfl
  rw [Bool.and_eq_true, decide_eq_true_eq, decide_eq_true_eq]
  constructor
  · show (97 : UInt32).toNat ≤ (Char.ofNatAux (c.toNat + 32) hvalid).val.toNat
    rw [hval, show (97 : UInt32).toNat = 97 from rfl]
    omega
  · show (Char.ofNatAux (c.toNat + 32) hvalid).val.toNat ≤ (122 : UInt32).toNat
    rw [hval, show (122 : UInt32).toNat = 122 from rfl]
    omega

theorem lower_toLower_fix (c : Char) (h : c.isLower = true) : Char.toLower c = c := by
  simp [Char.isLower, decide_eq_true_eq] at h
  have hn1 : (97 : Nat) ≤ c.toNat := h.1
  unfold Char.toLower
  rw [if_neg]
  omega

theorem digit_toLower_fix (c : Char) (h : c.isDigit = true) : Char.toLower c = c := by
  simp [Char.isDigit, decide_eq_true_eq] at h
  have hn2 : c.toNat ≤ (57 : Nat) := h.2
  unfold Char.toLower
  rw [if_neg]
  omega

theorem keepChar_toLower_identChar (c : Char) (h : keepChar c = true) :
    identChar (Char.toLower c) = true := by
  simp only [keepChar, Bool.or_eq_true] at h
  rcases h with (h | h) | h
  · simp only [Char.isAlpha, Bool.or_eq_true] at h
    rcases h with h | h
    · simp [identChar, upper_toLower_isLower c h]
    · simp [identChar, lower_toLower_fix c h, h]
  · simp [identChar, digit_toLower_fix c h, h]
  · have : c = '_' := by simpa using h
    subst this
    decide

theorem keepChar_toLower_head (c : Char) (h : keepChar c = true)
    (h2 : (c == '_') = false) : lowerOrDigit (Char.toLower c) = true := by
  simp only [keepChar, Bool.or_eq_true] at h
  rcases h with (h | h) | h
  · simp only [Char.isAlpha, Bool.or_eq_true] at h
    rcases h with h | h
    · simp [lowerOrDigit, upper_toLower_isLower c h]
    · simp [lowerOrDigit, lower_toLower_fix c h, h]
  · simp [lowerOrDigit, digit_toLower_fix c h, h]
  · rw [h] at h2
    cases h2

/-! ### Invariants along the sanitizer pipeline -/

theorem replaceBad_all_keepChar (l : List Char) : (replaceBad l).all keepChar = true := by
  simp only [replaceBad, List.all_map, List.all_eq_true, Function.comp]
  intro c _
  by_cases h : keepChar c = true
  · rw [if_pos h]; exact h
  · rw [if_neg h]; decide

theorem prefixDigitCol_all_keepChar (l : List Char) (h : l.all keepChar = true) :
    (prefixDigitCol l).all keepChar = true := by
  cases l with
  | nil => simp [prefixDigitCol]
  | cons c rest =>
    by_cases hd : c.isDigit = true
    · rw [prefixDigitCol, if_pos hd]
      simp only [List.all_cons, Bool.and_eq_true] at h ⊢
      exact ⟨by decide, by decide, by decide, by decide, h⟩
    · rwa [prefixDigitCol, if_neg hd]

theorem collapseU_all (p : Char → Bool) : ∀ l : List Char,
    l.all p = true → (collapseU l).all p = true := by
  intro l
  induction l using collapseU.induct with
  | case1 => intro h; simp [collapseU]
  | case2 c => intro h; simpa [collapseU] using h
  | case3 c d rest hcd ih =>
    intro h
    rw [collapseU, if_pos hcd]
    exact ih (by simp_all [List.all_cons])
  | case4 c d rest hcd ih =>
    intro h
    rw [collapseU, if_neg hcd]
    simp only [List.all_cons, Bool.and_eq_true] at h ⊢
    exact ⟨h.1, ih (by simp [List.all_cons, h.2.1, h.2.2])⟩

theorem dropWhile_all (p q : Char → Bool) : ∀ l : List Char,
    l.all p = true → (l.dropWhile q).all p = true := by
  intro l
  induction l with
  | nil => intro h; simp [List.dropWhile]
  | cons a t ih =>
    intro h
    simp only [List.all_cons, Bool.and_eq_true] at h
    rw [List.dropWhile]
    by_cases hq : q a = true
    · rw [hq]; exact ih h.2
    · rw [Bool.of_not_eq_true hq]
      simp [List.all_cons, h.1, h.2]

theorem dropWhile_head_false (q : Char → Bool) : ∀ (l : List Char) (c : Char) (r : List Char),
    l.dropWhile q = c :: r → q c = false := by
  intro l
  induction l with
  | nil => intro c r h; cases h
  | cons a t ih =>
    intro c r h
    rw [List.dropWhile] at h
    by_cases hq : q a = true
    · rw [hq] at h; exact ih c r h
    · rw [Bool.of_not_eq_true hq] at h
      injection h with h1 _
      rw [← h1]
      exact Bool.of_not_eq_true hq

theorem stripTrail_all (p : Char → Bool) : ∀ l : List Char,
    l.all p = true → (stripTrail l).all p = true := by
  intro l
  induction l with
  | nil => intro h; simp [stripTrail]
  | cons c rest ih =>
    intro h
    simp only [List.all_cons, Bool.and_eq_true] at h
    rw [stripTrail]
    cases hst : stripTrail rest with
    | nil =>
      by_cases hc : (c == '_') = true
      · simp [hc]
      · simp only [Bool.of_not_eq_true hc]
        simp [List.all_cons, h.1]
    | cons d r =>
      have := ih h.2
      rw [hst] at this
      simp only [List.all_cons, Bool.and_eq_true] at this ⊢
      exact ⟨h.1, this.1, this.2⟩

theorem stripTrail_head : ∀ (c : Char) (rest : List Char),
    stripTrail (c :: rest) = [] ∨ ∃ r, stripTrail (c :: rest) = c :: r := by
  intro c rest
  rw [stripTrail]
  cases hst : stripTrail rest with
  | nil =>
    by_cases hc : (c == '_') = true
    · left; simp [hc]
    · right; exact ⟨[], by simp [Bool.of_not_eq_true hc]⟩
  | cons d r => right; exact ⟨d :: r, rfl⟩

theorem stripU_all (p : Char → Bool) (l : List Char) (h : l.all p = true) :
    (stripU l).all p = true :=
  stripTrail_all p _ (dropWhile_all p _ l h)

theorem stripU_head (l : List Char) (c : Char) (r : List Char)
    (h : stripU l = c :: r) : (c == '_') = false := by
  unfold stripU at h
  cases hl : stripLead l with
  | nil => rw [hl] at h; cases h
  | cons a t =>
    have ha : (a == '_') = false := dropWhile_head_false _ l a t hl
    rw [hl] at h
    rcases stripTrail_head a t with h2 | ⟨r2, h2⟩
    · rw [h2] at h; cases h
    · rw [h2] at h
      injection h with h3 _
      rw [← h3]
      exact ha

theorem sanitizeCore_all_identChar (s : List Char) :
    (sanitizeCore s).all identChar = true := by
  have hkeep : (stripU (collapseU (prefixDigitCol (replaceBad s)))).all keepChar = true :=
    stripU_all _ _ (collapseU_all _ _ (prefixDigitCol_all_keepChar _ (replaceBad_all_keepChar s)))
  simp only [sanitizeCore, lcList, List.all_map, List.all_eq_true, Function.comp]
  simp only [List.all_eq_true] at hkeep
  intro c hc
  exact keepChar_toLower_identChar c (hkeep c hc)

theorem sanitizeCore_head (s : List Char) (c : Char) (r : List Char)
    (h : sanitizeCore s = c :: r) : lowerOrDigit c = true := by
  unfold sanitizeCore lcList at h
  cases hst : stripU (collapseU (prefixDigitCol (replaceBad s))) with
  | nil => rw [hst] at h; cases h
  | cons a t =>
    have hkeep : ((a :: t).all keepChar) = true := by
      rw [← hst]
      exact stripU_all _ _ (collapseU_all _ _
        (prefixDigitCol_all_keepChar _ (replaceBad_all_keepChar s)))
    have ha : (a == '_') = false := stripU_head _ a t hst
    rw [hst] at h
    simp only [List.map_cons] at h
    injection h with h1 _
    rw [← h1]
    simp only [List.all_cons, Bool.and_eq_true] at hkeep
    exact keepChar_toLower_head a hkeep.1 ha


/-! ### Store lemmas -/

theorem lookup_dropTable_self (db : DB) (t : String) :
    lookupTable (dropTable db t) t = none := by
  induction db with
  | nil => rfl
  | cons p rest ih =>
    rw [dropTable, List.filter]
    by_cases h : (p.1 != t) = true
    · rw [h]
      rw [lookupTable, List.lookup]
      have : (t == p.1) = false := by
        simp only [bne_iff_ne, ne_eq] at h
        simp [beq_eq_false_iff_ne]
        exact fun hh => h hh.symm
      rw [this]
      exact ih
    · rw [Bool.of_not_eq_true h]
      exact ih

theorem dropTable_dropTable (db : DB) (t : String) :
    dropTable (dropTable db t) t = dropTable db t := by
  unfold dropTable
  rw [List.filter_filter]
  simp

theorem lookup_setTable_self (db : DB) (t : String) (tab : Table) :
    lookupTable (setTable db t tab) t = some tab := by
  rw [setTable, lookupTable, List.lookup]
  simp

theorem setTable_setTable (db : DB) (t : String) (a b : Table) :
    setTable (setTable db t a) t b = setTable db t b := by
  rw [setTable, setTable, setTable]
  rw [show dropTable ((t, a) :: dropTable db t) t = dropTable (dropTable db t) t from by
    rw [dropTable, List.filter]; simp [dropTable]]
  rw [dropTable_dropTable]

theorem setTable_dropTable (db : DB) (t : String) (tab : Table) :
    setTable (dropTable db t) t tab = setTable db t tab := by
  rw [setTable, setTable, dropTable_dropTable]

theorem execOps_cons_ok (db d : DB) (op : SqlOp) (rest : List SqlOp)
    (h : execOp db op = .ok d) : execOps db (op :: rest) = execOps d rest := by
  rw [execOps, h]

theorem execOps_cons_err (db : DB) (e : DbErr) (op : SqlOp) (rest : List SqlOp)
    (h : execOp db op = .error e) : execOps db (op :: rest) = .error e := by
  rw [execOps, h]

/-- Executing the row inserts of one table: all of them go through
exactly when every row's arity matches the column count, and then the
table holds all the rows in order; otherwise the unit is rejected. -/
theorem execOps_inserts (t : String) (cols : List String) :
    ∀ (rs : List (List (Option String))) (db : DB) (acc : List (List (Option String))),
    execOps (setTable db t ⟨cols, acc⟩) (rs.map (SqlOp.insertT t)) =
      (if rs.all (fun r => r.length == cols.length)
       then .ok (setTable db t ⟨cols, acc ++ rs⟩)
       else .error .badArity) := by
  intro rs
  induction rs with
  | nil => intro db acc; simp [execOps]
  | cons r rest ih =>
    intro db acc
    rw [List.map_cons]
    have hlook : lookupTable (setTable db t ⟨cols, acc⟩) t = some ⟨cols, acc⟩ :=
      lookup_setTable_self db t ⟨cols, acc⟩
    by_cases har : r.length = cols.length
    · have hstep : execOp (setTable db t ⟨cols, acc⟩) (.insertT t r) =
          .ok (setTable (setTable db t ⟨cols, acc⟩) t ⟨cols, acc ++ [r]⟩) := by
        simp [execOp, hlook, har]
      rw [setTable_setTable] at hstep
      rw [execOps_cons_ok _ _ _ _ hstep, ih db (acc ++ [r])]
      have hall : (r :: rest).all (fun x => x.length == cols.length) =
          rest.all (fun x => x.length == cols.length) := by
        simp [List.all_cons, har]
      rw [hall, List.append_assoc]
      rfl
    · have hstep : execOp (setTable db t ⟨cols, acc⟩) (.insertT t r) =
          .error .badArity := by
        simp [execOp, hlook, har]
      rw [execOps_cons_err _ _ _ _ hstep]
      have hall : (r :: rest).all (fun x => x.length == cols.length) = false := by
        simp [List.all_cons, har]
      rw [hall]
      rfl

theorem cleanColumnsAux_length : ∀ (i : Nat) (labels : List String),
    (cleanColumnsAux i labels).length = labels.length := by
  intro i labels
  induction labels generalizing i with
  | nil => rfl
  | cons l ls ih => simp [cleanColumnsAux, ih]

theorem cleanColumns_length (labels : List String) :
    (cleanColumns labels).length = labels.length :=
  cleanColumnsAux_length 0 labels

theorem fullCols_length (f : Frame) : (fullCols f).length = f.columns.length + 1 := by
  simp [fullCols, cleanColumns_length]

theorem loadRows_arity_aux (n : Nat) (ts : String) : ∀ rows : List (List Cell),
    ((loadRows rows ts).all fun r => r.length == n + 1) =
      (rows.all fun r => r.length == n) := by
  intro rows
  induction rows with
  | nil => rfl
  | cons r rest ih =>
    simp only [loadRows, List.map_cons, List.all_cons] at ih ⊢
    rw [ih]
    congr 1
    simp only [List.length_append, List.length_map, List.length_cons, List.length_nil]
    by_cases h : r.length = n
    · simp [h]
    · have h2 : ¬(r.length + 1 = n + 1) := by omega
      simp [h, h2]

/-- Arity transfer: a loaded row (cleaned values plus the timestamp)
matches the full column list exactly when the source row matches the
source column list. -/
theorem loadRows_arity (f : Frame) (ts : String) :
    ((loadRows f.rows ts).all fun r => r.length == (fullCols f).length) =
      (f.rows.all fun r => r.length == f.columns.length) := by
  simp only [fullCols_length]
  exact loadRows_arity_aux f.columns.length ts f.rows

/-- Master characterization of `import_dataframe_to_db`: the whole
drop/create/insert unit either commits — leaving the destination table
holding exactly the cleaned rows — or is rejected, leaving the
committed store exactly as it was (the psycopg2 transaction was never
committed).  Success depends only on the frame, not on the prior store
contents. -/
theorem importDataframeToDb_eq (f : Frame) (t ts : String) (db : DB) :
    importDataframeToDb f t ts db =
      (if importFrameOk f
       then (true, setTable db t ⟨fullCols f, loadRows f.rows ts⟩)
       else (false, db)) := by
  unfold importDataframeToDb importOps
  have hstep0 : execOp db (SqlOp.dropT t) = .ok (dropTable db t) := rfl
  rw [execOps_cons_ok _ _ _ _ hstep0]
  by_cases hdup : hasDup (fullCols f) = true
  · have hstep : execOp (dropTable db t) (.createT t (fullCols f)) = .error .dupColumn := by
      simp [execOp, lookup_dropTable_self, hdup]
    rw [execOps_cons_err _ _ _ _ hstep]
    have : importFrameOk f = false := by
      simp [importFrameOk, hdup]
    rw [this]
    rfl
  · have hstep : execOp (dropTable db t) (.createT t (fullCols f)) =
        .ok (setTable (dropTable db t) t ⟨fullCols f, []⟩) := by
      simp [execOp, lookup_dropTable_self, hdup]
    rw [setTable_dropTable] at hstep
    rw [execOps_cons_ok _ _ _ _ hstep]
    rw [execOps_inserts t (fullCols f) (loadRows f.rows ts) db []]
    rw [loadRows_arity]
    by_cases har : (f.rows.all fun r => r.length == f.columns.length) = true
    · rw [har]
      have : importFrameOk f = true := by
        simp [importFrameOk, hdup, har]
      rw [this]
      simp
    · rw [Bool.of_not_eq_true har]
      have : importFrameOk f = false := by
        simp [importFrameOk, Bool.of_not_eq_true har]
      rw [this]
      rfl


/-! ### Orchestrator characterizations -/

theorem importDataframeToDb_fst (f : Frame) (t ts : String) (db : DB) :
    (importDataframeToDb f t ts db).1 = importFrameOk f := by
  rw [importDataframeToDb_eq]
  by_cases h : importFrameOk f = true
  · simp [h]
  · simp [Bool.of_not_eq_true h]

theorem importDataframeToDb_fail (f : Frame) (t ts : String) (db : DB)
    (h : importFrameOk f = false) : importDataframeToDb f t ts db = (false, db) := by
  rw [importDataframeToDb_eq, h]
  rfl

theorem importSingleSheet_fst (fn : String) (sheet : List (List Cell))
    (t ts : String) (db : DB) :
    (importSingleSheet fn sheet t ts db).1 = singleSheetOk fn sheet := by
  unfold importSingleSheet singleSheetOk
  cases h : singleSheetRows fn sheet with
  | nil => rfl
  | cons header data =>
    by_cases hd : data.isEmpty = true
    · simp [hd]
    · simp only [Bool.of_not_eq_true hd, if_false, Bool.not_false, Bool.true_and]
      exact importDataframeToDb_fst _ t ts db

theorem importMultiSheet_fst (base ts : String) :
    ∀ (sheets : List (String × List (List Cell))) (db : DB),
    (importMultiSheet base ts sheets db).1 = multiCount sheets := by
  intro sheets
  induction sheets with
  | nil => intro db; rfl
  | cons p rest ih =>
    intro db
    obtain ⟨name, sheet⟩ := p
    cases sheet with
    | nil =>
      rw [importMultiSheet, multiCount]
      exact ih db
    | cons header data =>
      by_cases hd : data.isEmpty = true
      · rw [importMultiSheet, multiCount, if_pos hd, if_pos hd]
        exact ih db
      · rw [importMultiSheet, multiCount, if_neg hd, if_neg hd]
        simp only
        rw [importDataframeToDb_fst, ih]

theorem importExcelToPostgres_fst (cfg : FileConfig) (wb : Workbook)
    (ts : String) (db : DB) :
    (importExcelToPostgres cfg wb ts db).1 = bindingOk (cfg, some wb) := by
  obtain ⟨fn, tn, ty⟩ := cfg
  cases ty with
  | multiSheet =>
    show (importMultiSheetExcel tn ts wb db).1 = decide (0 < multiCount wb)
    simp only [importMultiSheetExcel]
    rw [importMultiSheet_fst]
  | singleSheet =>
    cases wb with
    | nil => rfl
    | cons p rest =>
      obtain ⟨name, sheet⟩ := p
      show (importSingleSheet fn sheet tn ts db).1 = singleSheetOk fn sheet
      exact importSingleSheet_fst fn sheet tn ts db

theorem runDailyImport_fst (ts : String) :
    ∀ (files : List (FileConfig × Option Workbook)) (db : DB),
    (runDailyImport ts files db).1 = files.countP bindingOk := by
  intro files
  induction files with
  | nil => intro db; rfl
  | cons p rest ih =>
    intro db
    obtain ⟨cfg, fetched⟩ := p
    cases fetched with
    | none =>
      rw [runDailyImport, List.countP_cons]
      simp [bindingOk, ih db]
    | some wb =>
      rw [runDailyImport, List.countP_cons]
      simp only
      rw [importExcelToPostgres_fst, ih]
      by_cases h : bindingOk (cfg, some wb) = true
      · rw [h]
        simp [Nat.add_comm]
      · rw [Bool.of_not_eq_true h]
        simp

/-! ### Helper lemmas for the claim-level theorems -/

theorem column_fallback_ne_empty (i : Nat) : ("column_" ++ toString i) ≠ "" := by
  intro h
  have hlen := congrArg String.length h
  rw [String.length_append] at hlen
  have h7 : ("column_" : String).length = 7 := rfl
  have h0 : ("" : String).length = 0 := rfl
  rw [h7, h0] at hlen
  omega

theorem mk_cons_ne_empty (c : Char) (r : List Char) : String.mk (c :: r) ≠ "" := by
  intro h
  have hlen := congrArg String.length h
  have h1 : (String.mk (c :: r)).length = r.length + 1 := by
    simp [String.length]
  have h0 : ("" : String).length = 0 := rfl
  rw [h1, h0] at hlen
  omega

theorem cleanColumnsAux_getD : ∀ (labels : List String) (j i : Nat),
    i < labels.length →
    (cleanColumnsAux j labels).getD i "" = sanitize (labels.getD i "") (j + i) := by
  intro labels
  induction labels with
  | nil => intro j i h; cases h
  | cons l ls ih =>
    intro j i h
    cases i with
    | zero => simp [cleanColumnsAux]
    | succ k =>
      rw [cleanColumnsAux]
      simp only [List.getD_cons_succ]
      rw [ih (j + 1) k (by simpa using h)]
      congr 1
      omega

/-! ### Claim-level theorems -/

/-- C1 (amended).  Sanitizer totality: for any input string and any
ordinal, `sanitize` returns a non-empty string matching
`[a-z0-9][a-z0-9_]*` or equal to `column_{ordinal}`, and — being a
total function — never raises.  (Amended from the spec's
`[a-z][a-z0-9_]*`: the result can start with a digit, because the
`col_` digit prefix is applied before leading underscores are
stripped.) -/
theorem c1_sanitize_totality_amended (s : String) (i : Nat) :
    sanitize s i ≠ "" ∧
      (matchesCodeIdent (sanitize s i) = true ∨
       sanitize s i = "column_" ++ toString i) := by
  unfold sanitize
  by_cases h : needsFallback (sanitizeCore s.toList) = true
  · rw [if_pos h]
    exact ⟨column_fallback_ne_empty i, Or.inr rfl⟩
  · rw [if_neg h]
    have h2 : needsFallback (sanitizeCore s.toList) = false := Bool.of_not_eq_true h
    rw [needsFallback, Bool.or_eq_false_iff] at h2
    cases hsc : sanitizeCore s.toList with
    | nil => rw [hsc] at h2; cases h2.1
    | cons c r =>
      refine ⟨mk_cons_ne_empty c r, Or.inl ?_⟩
      have hall : ((c :: r).all identChar) = true := by
        rw [← hsc]; exact sanitizeCore_all_identChar s.toList
      simp only [List.all_cons, Bool.and_eq_true] at hall
      have hhead : lowerOrDigit c = true := sanitizeCore_head s.toList c r hsc
      show matchesCodeIdent (String.mk (c :: r)) = true
      unfold matchesCodeIdent
      simp only [String.toList]
      rw [hhead, hall.2]
      rfl

/-- C1 counterexample: on input `_9` with ordinal 0 the sanitizer
returns `9`, which starts with a digit — it neither matches
`[a-z][a-z0-9_]*` nor equals `column_0`, refuting the claim as
stated. -/
theorem c1_sanitize_totality_cex :
    sanitize "_9" 0 = "9" ∧
    ¬ (matchesSpecIdent (sanitize "_9" 0) = true ∨
       sanitize "_9" 0 = "column_" ++ toString 0) := by
  decide

/-- C2 (amended).  The sanitizer is deterministic (it is a pure
function of the raw label and the ordinal), and the cleaning loop
applies it positionally (label at index `i` is sanitized with ordinal
`i`); but colliding results are NOT disambiguated: two distinct labels
of one column list can yield identical sanitized identifiers, as
`["a b", "a.b"]` does (the duplicate column list then makes the
`CREATE TABLE` fail; the table never materializes with duplicate
columns). -/
theorem c2_sanitizer_determinism_amended :
    (∀ (x : String) (i : Nat), sanitize x i = sanitize x i) ∧
    (∀ (labels : List String) (i : Nat), i < labels.length →
      (cleanColumns labels).getD i "" = sanitize (labels.getD i "") i) ∧
    cleanColumns ["a b", "a.b"] = ["a_b", "a_b"] := by
  refine ⟨fun x i => rfl, ?_, by decide⟩
  intro labels i h
  have := cleanColumnsAux_getD labels 0 i h
  simpa using this

/-- C2 witness: the positional part of the amended claim instantiated
at the concrete column list. -/
theorem c2_witness :
    (cleanColumns ["a b", "a.b"]).getD 0 "" =
      sanitize ((["a b", "a.b"] : List String).getD 0 "") 0 :=
  c2_sanitizer_determinism_amended.2.1 ["a b", "a.b"] 0 (by decide)

/-- C2 counterexample: the sanitized identifiers of the column list
`["a b", "a.b"]` are NOT pairwise distinct, refuting the claim that no
two columns of one materialized table share a name. -/
theorem c2_sanitizer_uniqueness_cex :
    ¬ (cleanColumns ["a b", "a.b"]).Nodup := by
  decide

/-- C3.  Atomicity of one destination table's materialization and
load: the drop/create/insert statement trace of
`import_dataframe_to_db` runs inside one transaction with a single
commit, so the committed store either is left exactly as it was
(failure was returned and nothing — not even the drop — took effect)
or holds the destination table with its full column list and ALL the
loaded rows (the import returned success). -/
theorem c3_import_transaction_atomic (f : Frame) (t ts : String) (db : DB) :
    importDataframeToDb f t ts db = (false, db) ∨
    importDataframeToDb f t ts db =
      (true, setTable db t ⟨fullCols f, loadRows f.rows ts⟩) := by
  rw [importDataframeToDb_eq]
  by_cases h : importFrameOk f = true
  · right; rw [if_pos h]
  · left; rw [if_neg h]

/-- C4 (amended).  If table creation is rejected by the store (here:
duplicate sanitized column names), the sheet/binding import fails and
the committed store is exactly its pre-run state: the destination table
is never partially created, and it is absent only if it was absent
before the run — a pre-existing table survives the rolled-back
transaction. -/
theorem c4_materialize_failure_amended (f : Frame) (t ts : String) (db : DB)
    (h : hasDup (fullCols f) = true) :
    importDataframeToDb f t ts db = (false, db) := by
  apply importDataframeToDb_fail
  simp [importFrameOk, h]

/-- C4 witness: the amended theorem at a concrete frame whose two
labels collide after sanitization. -/
theorem c4_witness : importDataframeToDb frameC4 "x" "2024" [] = (false, []) :=
  c4_materialize_failure_amended frameC4 "x" "2024" [] (by decide)

/-- C4 counterexample: with a pre-existing table `t` in the store, a
rejected `CREATE TABLE` fails the import but leaves `t` present — the
destination table is NOT left absent, refuting the claim as stated. -/
theorem c4_materialize_failure_cex :
    (importDataframeToDb frameC4 "t" "2024" dbC4).1 = false ∧
    lookupTable (importDataframeToDb frameC4 "t" "2024" dbC4).2 "t" ≠ none := by
  decide

/-- C5 (amended).  Empty-sheet policy: in multi-sheet (fan-out) mode a
sheet with zero data rows — or with no rows at all — is skipped: it
creates no table, leaves the success count untouched, and processing
continues with the remaining sheets exactly as if the empty sheet were
not there.  In single-sheet mode, however, a sheet with zero data rows
makes the import return the failure outcome (`False`), which the
caller counts as a failed binding — there is no distinct `Empty`
outcome in that mode. -/
theorem c5_empty_sheet_amended :
    (∀ (base ts name : String) (rest : List (String × List (List Cell))) (db : DB),
      importMultiSheet base ts ((name, []) :: rest) db =
        importMultiSheet base ts rest db) ∧
    (∀ (base ts name : String) (header : List Cell)
       (rest : List (String × List (List Cell))) (db : DB),
      importMultiSheet base ts ((name, [header]) :: rest) db =
        importMultiSheet base ts rest db) ∧
    (∀ (fn : String) (header : List Cell) (t ts : String) (db : DB),
      containsSub fn biAtScaleMarker = false →
      importSingleSheet fn [header] t ts db = (false, db)) := by
  refine ⟨fun base ts name rest db => rfl, ?_, ?_⟩
  · intro base ts name header rest db
    rw [importMultiSheet]
    simp
  · intro fn header t ts db h
    unfold importSingleSheet singleSheetRows
    rw [h]
    simp

/-- C5 witness: the single-sheet half of the amended claim at a
concrete file name (not containing the skip marker) and a concrete
header-only sheet. -/
theorem c5_witness :
    importSingleSheet "other.xlsx" [[Cell.text "h"]] "w" "ts" [] = (false, []) :=
  c5_empty_sheet_amended.2.2 "other.xlsx" [Cell.text "h"] "w" "ts" [] (by decide)

/-- C5 counterexample: a single-sheet binding whose sheet has a header
row and zero data rows: the import returns the failure Boolean — the
same outcome as an error — and the run records 0/1 bindings succeeded
with a non-zero exit code, refuting the claim that an empty sheet is
skipped without counting as a failure in single-sheet mode. -/
theorem c5_empty_sheet_cex :
    (importSingleSheet "other.xlsx" [[Cell.text "h"]] "t" "ts" []).1 = false ∧
    runSummary "ts" [(cfgC5, some wbC5)] [] = (0, 1) ∧
    exitCode "ts" [(cfgC5, some wbC5)] [] ≠ 0 := by
  decide

/-- C6.  Fan-out mode: the file's outcome is `succeeded` exactly when
at least one sheet materialized; a failing sheet (here: one whose
sanitized columns collide, so its `CREATE TABLE` is rejected) is
recorded and processing continues with the remaining sheets and an
unchanged store; and the concrete three-sheet workbook whose middle
sheet is empty yields exactly two destination tables, a success count
of 2, and a `succeeded` file outcome. -/
theorem c6_fanout_policy :
    (∀ (base ts : String) (sheets : List (String × List (List Cell))) (db : DB),
      (importMultiSheetExcel base ts sheets db).1 = decide (0 < multiCount sheets)) ∧
    (∀ (base ts name : String) (header : List Cell) (data : List (List Cell))
       (rest : List (String × List (List Cell))) (db : DB),
      data ≠ [] → importFrameOk (mkFrame header data) = false →
      importMultiSheet base ts ((name, header :: data) :: rest) db =
        importMultiSheet base ts rest db) ∧
    ((importMultiSheetExcel "dimensions" "2024-01-01" wb3 []).1 = true ∧
     (importMultiSheet "dimensions" "2024-01-01" wb3 []).1 = 2 ∧
     (importMultiSheetExcel "dimensions" "2024-01-01" wb3 []).2.map Prod.fst =
       ["dimensions_product", "dimensions_region"]) := by
  refine ⟨?_, ?_, by decide, by decide, by decide⟩
  · intro base ts sheets db
    simp only [importMultiSheetExcel]
    rw [importMultiSheet_fst]
  · intro base ts name header data rest db hne hok
    have hie : data.isEmpty = false := by
      cases data with
      | nil => cases hne rfl
      | cons a l => rfl
    rw [importMultiSheet]
    rw [if_neg (by rw [hie]; exact Bool.false_ne_true)]
    simp only [importDataframeToDb_fail _ _ _ _ hok]
    simp

/-- C6 witness: the failure-containment half at a concrete failing
sheet (colliding sanitized columns) prepended to an empty sheet list. -/
theorem c6_witness :
    importMultiSheet "b" "ts"
      [("Dup", [[Cell.text "a b", Cell.text "a.b"], [Cell.text "1", Cell.text "2"]])] [] =
      importMultiSheet "b" "ts" [] [] :=
  c6_fanout_policy.2.1 "b" "ts" "Dup" [Cell.text "a b", Cell.text "a.b"]
    [[Cell.text "1", Cell.text "2"]] [] [] (by decide) (by decide)

/-- C7 (amended).  Fan-out destination table names are derived as
`{base}_{clean_sheet_name}` where the sheet-name cleaner lowercases and
replaces every character outside `[a-zA-Z0-9]` with an underscore —
WITHOUT the column sanitizer's underscore collapsing, stripping,
digit-prefixing, or empty/reserved fallback.  It is therefore not
extensionally equal to the column-name sanitizer: on `A  B` the cleaner
yields `a__b` while the sanitizer yields `a_b` for every ordinal. -/
theorem c7_table_name_amended :
    (∀ base s : String, derivedTableName base s = base ++ "_" ++ cleanSheetName s) ∧
    (∀ i : Nat, sanitize "A  B" i = "a_b") ∧
    cleanSheetName "A  B" = "a__b" := by
  exact ⟨fun base s => rfl, fun i => rfl, by decide⟩

/-- C7 counterexample: for sheet name `A  B` (two spaces) the derived
table name is `bi_a__b`, not `bi_` followed by the column sanitizer's
result `a_b` — refuting the claim that the sheet-name cleaning function
equals the Identifier Sanitizer of section 4.1. -/
theorem c7_table_name_cex :
    derivedTableName "bi" "A  B" = "bi_a__b" ∧
    sanitize "A  B" 0 = "a_b" ∧
    derivedTableName "bi" "A  B" ≠ "bi" ++ "_" ++ sanitize "A  B" 0 := by
  decide

/-- C8.  Null mapping: the rows handed to `INSERT` are exactly the
source rows cleaned cell-by-cell (plus the shared timestamp), and every
cell representing missing — empty cell, not-a-time marker, not-a-number
marker — is bound as SQL NULL (`none`), never as the literal text
`None`, `NaN`, or `NaT`. -/
theorem c8_null_mapping :
    (∀ (rows : List (List Cell)) (ts : String),
      loadRows rows ts = rows.map fun r => r.map cleanValue ++ [some ts]) ∧
    (∀ c : Cell, isMissing c = true →
      cleanValue c = none ∧ cleanValue c ≠ some "None" ∧
      cleanValue c ≠ some "NaN" ∧ cleanValue c ≠ some "NaT") := by
  refine ⟨fun rows ts => rfl, ?_⟩
  intro c h
  cases c with
  | blank => exact ⟨rfl, by decide, by decide, by decide⟩
  | naT => exact ⟨rfl, by decide, by decide, by decide⟩
  | naN => exact ⟨rfl, by decide, by decide, by decide⟩
  | text s => cases h

/-- C8 witness: the missing-cell half at the not-a-time marker. -/
theorem c8_witness : cleanValue Cell.naT = none :=
  (c8_null_mapping.2 Cell.naT rfl).1

/-- C9.  Run orchestration: a binding whose fetch failed is skipped and
the loop continues through all remaining bindings; the success count
equals the number of bindings whose own configuration and fetched
workbook import successfully (each binding is judged independently of
the others and of the store state, so no earlier failure prevents a
later attempt); the summary reports `succeeded/total`; and the process
exit code is 0 exactly when every binding succeeded. -/
theorem c9_run_exit_contract :
    (∀ (ts : String) (cfg : FileConfig)
       (rest : List (FileConfig × Option Workbook)) (db : DB),
      runDailyImport ts ((cfg, none) :: rest) db = runDailyImport ts rest db) ∧
    (∀ (ts : String) (files : List (FileConfig × Option Workbook)) (db : DB),
      runSummary ts files db = (files.countP bindingOk, files.length)) ∧
    (∀ (ts : String) (files : List (FileConfig × Option Workbook)) (db : DB),
      exitCode ts files db = 0 ↔ files.all bindingOk = true) := by
  refine ⟨fun ts cfg rest db => rfl, ?_, ?_⟩
  · intro ts files db
    rw [runSummary, runDailyImport_fst]
  · intro ts files db
    rw [exitCode, runSucceeded, runDailyImport_fst]
    constructor
    · intro h0
      by_cases hb : (files.countP bindingOk == files.length) = true
      · rw [List.all_eq_true]
        exact List.countP_eq_length.1 (beq_iff_eq.mp hb)
      · rw [if_neg hb] at h0
        cases h0
    · intro hall
      have hc : files.countP bindingOk = files.length :=
        List.countP_eq_length.2 (List.all_eq_true.mp hall)
      rw [if_pos (by rw [hc]; exact beq_self_eq_true _)]

/-- C10.  Header-skip policy: in single-sheet mode the rows handed to
the dataframe are the sheet minus its first three rows exactly when the
file name contains `BI At Scale Import` (so the fourth stored row
becomes the header and data starts at the fifth), and the whole sheet
(first row as header) otherwise; the policy is a function of the file
name alone — the binding configuration carries no header field — and
the two configured production files fall one on each side. -/
theorem c10_header_skip_policy :
    (∀ (fn : String) (s : List (List Cell)),
      singleSheetRows fn s =
        if containsSub fn biAtScaleMarker then s.drop 3 else s) ∧
    (∀ (fn : String) (r0 r1 r2 r3 : List Cell) (rest : List (List Cell)),
      containsSub fn biAtScaleMarker = true →
      singleSheetRows fn (r0 :: r1 :: r2 :: r3 :: rest) = r3 :: rest) ∧
    (∀ (fn : String) (s : List (List Cell)),
      containsSub fn biAtScaleMarker = false → singleSheetRows fn s = s) ∧
    (containsSub "BI At Scale Import.xlsx" biAtScaleMarker = true ∧
     containsSub "BI Dimensions.xlsx" biAtScaleMarker = false) := by
  refine ⟨fun fn s => rfl, ?_, ?_, by decide, by decide⟩
  · intro fn r0 r1 r2 r3 rest h
    rw [singleSheetRows, if_pos h]
    rfl
  · intro fn s h
    rw [singleSheetRows, if_neg (by rw [h]; exact Bool.false_ne_true)]

/-- C10 witness: the skip half at the production file name and a
five-row sheet — the fourth row becomes the head of the result. -/
theorem c10_witness :
    singleSheetRows "BI At Scale Import.xlsx"
      [[Cell.text "m1"], [Cell.text "m2"], [Cell.text "m3"],
       [Cell.text "hdr"], [Cell.text "d1"]] =
      [[Cell.text "hdr"], [Cell.text "d1"]] :=
  c10_header_skip_policy.2.1 "BI At Scale Import.xlsx"
    [Cell.text "m1"] [Cell.text "m2"] [Cell.text "m3"] [Cell.text "hdr"]
    [[Cell.text "d1"]] (by decide)

end BWMetaBase
